import Mathlib

/-!
Shallow embedding of the Composite and Visitor cores of the
Design-Patterns repository (src/src/structural_pattern.cpp and
src/src/behavioral_pattern.cpp, namespaces structural_pattern and
behavioral_pattern), together with theorems settling the frozen claims
about them.

Modelling conventions:
- A C++ `Component*` object is modelled as a value of the inductive type
  `Component`; since the composite tree is acyclic and unshared (the spec
  states cycle-freedom and single-parent ownership as caller-held
  invariants), a pointer is represented by the object's address, carried as
  the `addr : Nat` field of every node.  Pointer equality is equality of
  addresses.
- One `std::cout` line is one value of the inductive type `Line`:
  `Line.sizeLine n` stands for the line `Size:<n>` printed by
  `Composite::show`, `Line.leafLine a` for the line `Leaf <this>` printed
  by `Leaf::show` (the address `this` shown as `a`), and `Line.leaf2Line a`
  for the line `Leaf2 <this>` printed by `Leaf2::show`.
- Member functions are functions of the receiver state: `Composite::add`,
  `Composite::remove` and `Composite::getChildren` act on the
  `m_children : List Component` field.  `show` is embedded twice: `showS`
  threads the (potentially mutated) tree state through every child call,
  returning output and post-state exactly as the statement sequence of the
  C++ code does, and `render t := (showS t).1` is the observable output.
-/

namespace structural_pattern

/-- A node of the composite tree: `Leaf`, `Leaf2` or `Composite`
(src/src/structural_pattern.cpp, classes Leaf, Leaf2, Composite).
`addr` is the object's address (the value of `this`). -/
inductive Component : Type where
  | leaf (addr : Nat) : Component
  | leaf2 (addr : Nat) : Component
  | composite (addr : Nat) (children : List Component) : Component
deriving Repr

/-- One line of standard output produced by a `show` call. -/
inductive Line : Type where
  | sizeLine (n : Nat) : Line
  | leafLine (addr : Nat) : Line
  | leaf2Line (addr : Nat) : Line
deriving Repr, DecidableEq

/-- The address of a component: the value a `Component*` pointer to it
holds.  Pointer comparison in the C++ code is comparison of addresses. -/
def caddr : Component → Nat
  | .leaf a => a
  | .leaf2 a => a
  | .composite a _ => a

mutual
/-- Embedding of `Component::show` as a state transformer: returns the output
lines and the post-call tree.  `Leaf::show` prints `Leaf <this>`;
`Leaf2::show` prints `Leaf2 <this>`; `Composite::show` prints
`Size:<m_children.size()>` and then calls `show` on each child in order,
threading any state change through (the loop body is
`(*it)->show()`). -/
def showS : Component → List Line × Component
  | .leaf a => ([.leafLine a], .leaf a)
  | .leaf2 a => ([.leaf2Line a], .leaf2 a)
  | .composite a cs =>
      let r := showList cs
      (.sizeLine cs.length :: r.1, .composite a r.2)

/-- The loop `for (auto it = m_children.begin(); ...) (*it)->show();`
of `Composite::show`: shows each child in order, collecting output and
post-state of every child. -/
def showList : List Component → List Line × List Component
  | [] => ([], [])
  | c :: rest =>
      let r1 := showS c
      let r2 := showList rest
      (r1.1 ++ r2.1, r1.2 :: r2.2)
end

/-- The observable output of `show` (called `render` by the spec). -/
def render (t : Component) : List Line := (showS t).1

/-- Output of showing a list of children in order. -/
def renderList (l : List Component) : List Line := (showList l).1

/-- Method `Composite::add`: `m_children.push_back(c)` appends `c`. -/
def add (m_children : List Component) (c : Component) : List Component :=
  m_children ++ [c]

/-- Method `Composite::remove`: `std::find` locates the first child whose pointer
equals `c` (address comparison) and, if found, `erase` removes it;
otherwise the child list is left unchanged. -/
def remove (m_children : List Component) (c : Component) : List Component :=
  match m_children with
  | [] => []
  | x :: rest => if caddr x = caddr c then rest else x :: remove rest c

/-- Method `Composite::getChildren`: `return m_children;` returns the vector by
value, i.e. a copy of the current child sequence. -/
def getChildren (m_children : List Component) : List Component :=
  m_children

/-- The address-free structure of a tree: node variants and ordered
children only. -/
inductive Shape : Type where
  | leafS : Shape
  | leaf2S : Shape
  | compositeS (children : List Shape) : Shape
deriving Repr

mutual
/-- The pure structure of a tree: what the claim "T's structure and child
insertion order" denotes — variants and the ordered child shapes, with all
addresses erased. -/
def shape : Component → Shape
  | .leaf _ => .leafS
  | .leaf2 _ => .leaf2S
  | .composite _ cs => .compositeS (shapeList cs)

/-- Shapes of a child list, in insertion order. -/
def shapeList : List Component → List Shape
  | [] => []
  | c :: rest => shape c :: shapeList rest
end

mutual
/-- Normalizes every composite node's address to `0`, keeping leaf
addresses: two trees agree up to composite identities iff their images
under this map are equal. -/
def stripCompAddr : Component → Component
  | .leaf a => .leaf a
  | .leaf2 a => .leaf2 a
  | .composite _ cs => .composite 0 (stripCompAddrList cs)

/-- Map `stripCompAddr` over every member of a child list. -/
def stripCompAddrList : List Component → List Component
  | [] => []
  | c :: rest => stripCompAddr c :: stripCompAddrList rest
end

mutual
/-- Nesting depth of a tree: the maximal length of a chain of `show`
recursive calls started at the root. -/
def depth : Component → Nat
  | .leaf _ => 1
  | .leaf2 _ => 1
  | .composite _ cs => depthList cs + 1

/-- Maximal depth of a member of a child list. -/
def depthList : List Component → Nat
  | [] => 0
  | c :: rest => Nat.max (depth c) (depthList rest)
end

mutual
/-- Step-bounded execution of `show`: `fuel` bounds the depth of nested
recursive calls (the C++ call stack). `none` means the bound was hit
before the call returned; `some out` means the call returned with output
`out`.  Mirrors `showS` in the output it produces. -/
def showFuel : Nat → Component → Option (List Line)
  | 0, _ => none
  | _ + 1, .leaf a => some [.leafLine a]
  | _ + 1, .leaf2 a => some [.leaf2Line a]
  | fuel + 1, .composite _ cs =>
      match showListFuel fuel cs with
      | none => none
      | some o => some (.sizeLine cs.length :: o)
termination_by fuel t => (fuel, sizeOf t)

/-- Step-bounded `show` over a child list with the given remaining call
depth for each child. -/
def showListFuel : Nat → List Component → Option (List Line)
  | _, [] => some []
  | fuel, c :: rest =>
      match showFuel fuel c, showListFuel fuel rest with
      | some o1, some o2 => some (o1 ++ o2)
      | _, _ => none
termination_by fuel l => (fuel, sizeOf l)
end

end structural_pattern

namespace behavioral_pattern

/-- The dynamic type of an `Element` object
(src/src/behavioral_pattern.cpp, classes ConcreteElement1 and
ConcreteElement2). -/
inductive ElementT : Type where
  | concreteElement1 : ElementT
  | concreteElement2 : ElementT
deriving Repr, DecidableEq

/-- The dynamic type of a `Visitor` object
(src/src/behavioral_pattern.cpp, classes ConcreteVisitor1 and
ConcreteVisitor2). -/
inductive VisitorT : Type where
  | concreteVisitor1 : VisitorT
  | concreteVisitor2 : VisitorT
deriving Repr, DecidableEq

/-- One visitor operation body; each value is one of the four concrete
`visit` member function bodies (each prints a fixed one-line message
naming its visitor and element). -/
inductive VisitOp : Type where
  | visitor1Element1 : VisitOp
  | visitor1Element2 : VisitOp
  | visitor2Element1 : VisitOp
  | visitor2Element2 : VisitOp
deriving Repr, DecidableEq

/-- Virtual dispatch of the overload `visit(ConcreteElement1*)`: which
operation bodies run (in order) when `v->visit(e1)` is called with a
`ConcreteElement1*` argument on a visitor of dynamic type `v`.
`ConcreteVisitor1::visit(ConcreteElement1*)` prints
`ConcreteVisitor1 visit concrete element1`; likewise `ConcreteVisitor2`. -/
def visitElement1 : VisitorT → List VisitOp
  | .concreteVisitor1 => [.visitor1Element1]
  | .concreteVisitor2 => [.visitor2Element1]

/-- Virtual dispatch of the overload `visit(ConcreteElement2*)`. -/
def visitElement2 : VisitorT → List VisitOp
  | .concreteVisitor1 => [.visitor1Element2]
  | .concreteVisitor2 => [.visitor2Element2]

/-- Virtual dispatch of `Element::accept`: `ConcreteElement1::accept`
runs `v->visit(this)` with `this : ConcreteElement1*`, selecting the
`visit(ConcreteElement1*)` overload; `ConcreteElement2::accept` selects
the `visit(ConcreteElement2*)` overload.  The result is the trace of
visitor operation bodies that run. -/
def accept : ElementT → VisitorT → List VisitOp
  | .concreteElement1, v => visitElement1 v
  | .concreteElement2, v => visitElement2 v

/-- The operation registered for an (element variant, visitor variant)
pair, written from the spec's registration table: visitor `i` has one
handler per element variant `j`, the body `visitorIElementJ`. -/
def registeredOperation : ElementT → VisitorT → VisitOp
  | .concreteElement1, .concreteVisitor1 => .visitor1Element1
  | .concreteElement2, .concreteVisitor1 => .visitor1Element2
  | .concreteElement1, .concreteVisitor2 => .visitor2Element1
  | .concreteElement2, .concreteVisitor2 => .visitor2Element2

end behavioral_pattern

namespace structural_pattern

mutual
/-- Helper: the straight-line body of `show` never writes to any node, so
the state it returns is the state it received. -/
theorem showS_state_eq : ∀ t : Component, (showS t).2 = t
  | .leaf _ => rfl
  | .leaf2 _ => rfl
  | .composite a cs => by
      simp only [showS, showList_state_eq cs]

/-- Helper: the child loop of `Composite::show` leaves the child list as
it was. -/
theorem showList_state_eq : ∀ l : List Component, (showList l).2 = l
  | [] => rfl
  | c :: rest => by
      simp only [showList, showS_state_eq c, showList_state_eq rest]
end

/-- Helper: output of the child loop on an empty list. -/
theorem renderList_nil : renderList [] = [] := rfl

/-- Helper: output of the child loop on a nonempty list. -/
theorem renderList_cons (c : Component) (rest : List Component) :
    renderList (c :: rest) = render c ++ renderList rest := rfl

/-- Helper: output of `show` on a composite node. -/
theorem render_composite_eq (a : Nat) (cs : List Component) :
    render (.composite a cs) = .sizeLine cs.length :: renderList cs := rfl

/-- Helper: the child loop's output is the concatenation of the
children's outputs, in order. -/
theorem renderList_eq_flatten : ∀ l : List Component,
    renderList l = (l.map render).flatten
  | [] => rfl
  | c :: rest => by
      simp only [renderList_cons, renderList_eq_flatten rest, List.map_cons,
        List.flatten_cons]

/-- Helper: normalizing composite addresses preserves the number of
children. -/
theorem stripCompAddrList_length : ∀ l : List Component,
    (stripCompAddrList l).length = l.length
  | [] => rfl
  | _ :: rest => by
      simp only [stripCompAddrList, List.length_cons, stripCompAddrList_length rest]

mutual
/-- Helper: the output of `show` does not mention composite addresses, so
normalizing them leaves it unchanged. -/
theorem render_stripCompAddr : ∀ t : Component,
    render (stripCompAddr t) = render t
  | .leaf _ => rfl
  | .leaf2 _ => rfl
  | .composite a cs => by
      simp only [stripCompAddr, render_composite_eq, stripCompAddrList_length cs,
        renderList_stripCompAddrList cs]

/-- Helper: list version of `render_stripCompAddr`. -/
theorem renderList_stripCompAddrList : ∀ l : List Component,
    renderList (stripCompAddrList l) = renderList l
  | [] => rfl
  | c :: rest => by
      simp only [stripCompAddrList, renderList_cons, render_stripCompAddr c,
        renderList_stripCompAddrList rest]
end

mutual
/-- Helper: call depth bounded by `n` suffices for the step-bounded
execution of `show` to return, with the same output as `render`. -/
theorem showFuel_depth_le : ∀ (t : Component) (n : Nat), depth t ≤ n →
    showFuel n t = some (render t)
  | .leaf a, n, h => by
      cases n with
      | zero => simp [depth] at h
      | succ m => simp [showFuel, render, showS]
  | .leaf2 a, n, h => by
      cases n with
      | zero => simp [depth] at h
      | succ m => simp [showFuel, render, showS]
  | .composite a cs, n, h => by
      cases n with
      | zero => simp [depth] at h
      | succ m =>
          have h' : depthList cs ≤ m := by
            simp only [depth] at h
            omega
          simp [showFuel, showListFuel_depthList_le cs m h', render_composite_eq]

/-- Helper: list version of `showFuel_depth_le`. -/
theorem showListFuel_depthList_le : ∀ (l : List Component) (n : Nat),
    depthList l ≤ n → showListFuel n l = some (renderList l)
  | [], n, _ => by simp [showListFuel, renderList_nil]
  | c :: rest, n, h => by
      have h1 : depth c ≤ n := le_trans (Nat.le_max_left _ _) (by simpa [depthList] using h)
      have h2 : depthList rest ≤ n := le_trans (Nat.le_max_right (depth c) _) (by simpa [depthList] using h)
      simp [showListFuel, showFuel_depth_le c n h1,
        showListFuel_depthList_le rest n h2, renderList_cons]
end

/-- Helper: removing a child whose address is absent is the identity. -/
theorem remove_of_not_mem : ∀ (s : List Component) (x : Component),
    caddr x ∉ s.map caddr → remove s x = s
  | [], _, _ => rfl
  | y :: rest, x, h => by
      simp only [List.map_cons, List.mem_cons, not_or] at h
      obtain ⟨h1, h2⟩ := h
      have hne : ¬ caddr y = caddr x := fun e => h1 e.symm
      simp only [remove, if_neg hne, remove_of_not_mem rest x h2]

/-- Helper: removing a child erases exactly the first entry whose address
matches, keeping everything else in order. -/
theorem remove_append_first : ∀ (l₁ : List Component) (c : Component)
    (l₂ : List Component) (x : Component), caddr c = caddr x →
    caddr x ∉ l₁.map caddr → remove (l₁ ++ c :: l₂) x = l₁ ++ l₂
  | [], c, l₂, x, hc, _ => by simp [remove, hc]
  | y :: rest, c, l₂, x, hc, h => by
      simp only [List.map_cons, List.mem_cons, not_or] at h
      obtain ⟨h1, h2⟩ := h
      have hne : ¬ caddr y = caddr x := fun e => h1 e.symm
      simp only [List.cons_append, remove, if_neg hne, List.append_eq,
        remove_append_first rest c l₂ x hc h2]

end structural_pattern

namespace structural_pattern

/-- C1: for every composite node, `show` first emits the count of its
immediate children and then the renderings of the children in
child-insertion order, so the output is the depth-first pre-order
linearization of the subtree with each interior node's size line
immediately before its subtree's content. -/
theorem composite_render_preorder (a : Nat) (cs : List Component) :
    render (.composite a cs) = Line.sizeLine cs.length :: (cs.map render).flatten := by
  rw [render_composite_eq, renderList_eq_flatten]

/-- C3: the spec's end-to-end scenario: a root composite holding two
leaves and a child composite that holds one `Leaf2` renders, in order,
the root's child count 3, the two leaf lines, the child's count 1, and
the leaf-variant-2 line. -/
theorem render_example_scenario :
    render (.composite 100 [.leaf 101, .leaf 102, .composite 103 [.leaf2 104]]) =
      [.sizeLine 3, .leafLine 101, .leafLine 102, .sizeLine 1, .leaf2Line 104] := by
  decide

/-- C4 counterexample: two trees of identical structure (a single leaf)
whose objects have different addresses render differently, because
`Leaf::show` prints `this`; so the output is not a function of structure
and insertion order alone. -/
theorem render_depends_on_object_identity :
    shape (Component.leaf 0) = shape (Component.leaf 1) ∧
      render (Component.leaf 0) ≠ render (Component.leaf 1) :=
  ⟨rfl, by decide⟩

/-- C4 amended: the output of `show` is a deterministic function of the
tree's structure, child insertion order and the addresses of its leaf
nodes; composite addresses (and no hidden global state) play no role. -/
theorem render_determined_by_structure_and_leaf_identity
    (t t' : Component) (h : stripCompAddr t = stripCompAddr t') :
    render t = render t' := by
  rw [← render_stripCompAddr t, ← render_stripCompAddr t', h]

/-- Witness for C4 amended: two composites that differ only in their own
addresses render identically. -/
theorem render_determined_by_structure_and_leaf_identity_witness :
    render (Component.composite 5 [Component.leaf 3]) =
      render (Component.composite 9 [Component.leaf 3]) :=
  render_determined_by_structure_and_leaf_identity _ _ rfl

/-- C5: `Composite::remove` is a silent no-op when no child has the given
pointer's address, and otherwise erases exactly the first child with that
address, preserving the relative order of the remaining children. -/
theorem remove_spec (s : List Component) (x : Component) :
    (caddr x ∉ s.map caddr → remove s x = s) ∧
    (∀ l₁ c l₂, s = l₁ ++ c :: l₂ → caddr c = caddr x →
      caddr x ∉ l₁.map caddr → remove s x = l₁ ++ l₂) :=
  ⟨remove_of_not_mem s x,
   fun l₁ c l₂ hs hc h => hs ▸ remove_append_first l₁ c l₂ x hc h⟩

/-- Witness for C5: removing a present child erases only its first
occurrence; removing an absent child changes nothing. -/
theorem remove_spec_witness :
    remove [Component.leaf 1, Component.leaf 2, Component.leaf 2, Component.leaf 3]
        (Component.leaf 2) =
      [Component.leaf 1, Component.leaf 2, Component.leaf 3] ∧
    remove [Component.leaf 9] (Component.leaf 4) = [Component.leaf 9] :=
  ⟨(remove_spec [Component.leaf 1, Component.leaf 2, Component.leaf 2, Component.leaf 3]
        (Component.leaf 2)).2
      [Component.leaf 1] (Component.leaf 2) [Component.leaf 2, Component.leaf 3]
      rfl rfl (by decide),
   (remove_spec [Component.leaf 9] (Component.leaf 4)).1 (by decide)⟩

/-- C6 counterexample: a composite holding, in insertion order, an empty
composite and two leaves has three immediate children, so its first
output line reports the count 3 — not the count 2 the claim states. -/
theorem nested_composite_reports_three :
    render (.composite 200 [.composite 201 [], .leaf 202, .leaf 203]) =
      [.sizeLine 3, .sizeLine 0, .leafLine 202, .leafLine 203] ∧
    Line.sizeLine 3 ≠ Line.sizeLine 2 := by
  exact ⟨by decide, by decide⟩

/-- C6 amended: a composite holding, in insertion order, an empty
composite and two leaves renders its own count 3, then the nested
composite's count 0, then the two leaf lines, matching insertion
order. -/
theorem nested_composite_render :
    render (.composite 200 [.composite 201 [], .leaf 202, .leaf 203]) =
      [.sizeLine 3, .sizeLine 0, .leafLine 202, .leafLine 203] := by
  decide

/-- C7: running `show` a second time, on the state the first run left
behind, produces the same output as the first run: `show` mutates no
state its own output depends on. -/
theorem render_idempotent (t : Component) :
    render (showS t).2 = render t := by
  rw [showS_state_eq t]

/-- C8: `getChildren` returns the child sequence as of the moment of the
call; a subsequent `add` leaves that snapshot as it was while the
composite's own sequence moves on (the vector is returned by value, not
aliased). -/
theorem getChildren_snapshot (s : List Component) (x : Component) :
    getChildren s = s ∧
    getChildren (add s x) = s ++ [x] ∧
    getChildren (add s x) ≠ getChildren s := by
  refine ⟨rfl, rfl, fun h => ?_⟩
  have hlen := congrArg List.length h
  simp [getChildren, add] at hlen

/-- C9: on every finite acyclic tree (cycle-freedom is what the inductive
type `Component` encodes), `show` terminates: call depth `depth t`
suffices for the step-bounded execution to return, with the total
function's output; and an empty composite emits its size line 0 and
nothing else. -/
theorem render_terminates :
    (∀ t : Component, showFuel (depth t) t = some (render t)) ∧
    (∀ a : Nat, render (.composite a []) = [Line.sizeLine 0]) :=
  ⟨fun t => showFuel_depth_le t (depth t) (le_refl _), fun _ => rfl⟩

/-- C10: `show` leaves the whole tree — the composite's child sequence
and every child sequence below it — exactly as it was: traversal is
read-only. -/
theorem show_preserves_tree (t : Component) : (showS t).2 = t :=
  showS_state_eq t

end structural_pattern

namespace behavioral_pattern

/-- C2: for every element variant and visitor variant,
`element.accept(visitor)` runs exactly the visitor operation registered
for that pair, exactly once, and no other operation. -/
theorem accept_double_dispatch (e : ElementT) (v : VisitorT) :
    accept e v = [registeredOperation e v] := by
  cases e <;> cases v <;> rfl

end behavioral_pattern
